import Mathlib

/-!
Shallow embedding of the job-board backend (`src/index.js`): Mongoose
documents become Lean structures, each Express route handler becomes a pure
function from a database state and the request data to a new database state
and a response.  Mongo/Mongoose operations are translated as follows:
`findOne`/`findById` become `List.find?`, `deleteOne` becomes `List.eraseP`,
`deleteMany` becomes `List.filter` with the negated predicate, and
`findOneAndUpdate` with a plain (operator-free) update document becomes a
field-wise `$set` on the first matching document (Mongoose wraps an
operator-free update in `$set`, so absent payload fields are retained, and
`upsert: true` inserts a fresh document built from the filter, the `$set`
fields and the schema defaults when no document matches).

Document ids (`_id`) are modelled as naturals drawn from a `nextId` counter
in the database state.  HTTP responses are modelled as a status code plus
the message string the handler sends; every `catch` block in the source
sends the same `500 Server Error` response, modelled by the single constant
`serverError`.
-/

namespace JobBoard

/-- Document ids (`_id` in Mongo) are modelled as naturals. -/
abbrev Id := Nat

/-- An HTTP response as the source observably produces it: the status code
passed to `res.status` and the message string of the JSON body. -/
structure Resp where
  status : Nat
  msg : String
deriving DecidableEq, Repr

/-- The response every `catch (err)` block in the source sends
(`res.status(500).send('Server Error')` / `json({msg:'Server Error'})`):
persistence and validation failures alike surface as this one value. -/
def serverError : Resp := ⟨500, "Server Error"⟩

/-- A `User` document. `models/User.js` is not part of `src/`; the fields
used by `src/index.js` are `username`, `password` (the stored secret hash:
the spec says the plaintext is passed through a one-way salted hash by a
pre-save hook), `role` and the optional `recruiterProfile` reference. -/
structure UserDoc where
  id : Id
  username : String
  password : String
  role : String
  recruiterProfile : Option Id
deriving DecidableEq, Repr

/-- A `RecruiterProfile` document (representative company/contact fields of
`recruiterProfileSchema`; the remaining metadata fields are analogous
optional strings and play no part in any contract). -/
structure RecruiterProfileDoc where
  id : Id
  user : Id
  companyName : Option String
  industry : Option String
  recruiterEmail : Option String
deriving DecidableEq, Repr

/-- A `Resume` document (`resumeSchema`): every content field is optional
(no `required` marks in the schema) and `template` defaults to `classic`.
The structured section values (`personalInfo`, `experience`, ...) are
treated as opaque strings, which is faithful because no handler inspects
them. -/
structure ResumeDoc where
  id : Id
  user : Id
  personalInfo : Option String
  summary : Option String
  experience : Option String
  education : Option String
  skills : Option String
  projects : Option String
  links : Option String
  awards : Option String
  template : String
deriving DecidableEq, Repr

/-- The JSON body of `POST /api/resume`: each resume field is present or
absent, and the body may even carry a `user` field (which the handler
overrides with the authenticated id). -/
structure ResumePayload where
  user : Option Id
  personalInfo : Option String
  summary : Option String
  experience : Option String
  education : Option String
  skills : Option String
  projects : Option String
  links : Option String
  awards : Option String
  template : Option String
deriving DecidableEq, Repr

/-- A `Job` document (`jobSchema`): `recruiter`, `jobTitle`, `location`,
`employmentType`, `jobSummary`, `companyName` are `required`;
`employmentType` is enum-constrained; the list-valued fields default to
`[]`; the remaining strings are optional. -/
structure JobDoc where
  id : Id
  recruiter : Id
  jobTitle : String
  department : Option String
  reportsTo : Option String
  location : String
  employmentType : String
  jobSummary : String
  keyResponsibilities : List String
  requiredQualifications : List String
  preferredQualifications : List String
  coreCompetencies : List String
  workEnvironment : Option String
  compensationAndBenefits : Option String
  applicationInstructions : Option String
  companyName : String
deriving DecidableEq, Repr

/-- The JSON body of `POST /jobs`: every schema field may be present or
absent, including a `recruiter` field (which the handler overrides with
the authenticated id). -/
structure JobPayload where
  recruiter : Option Id
  jobTitle : Option String
  department : Option String
  reportsTo : Option String
  location : Option String
  employmentType : Option String
  jobSummary : Option String
  keyResponsibilities : Option (List String)
  requiredQualifications : Option (List String)
  preferredQualifications : Option (List String)
  coreCompetencies : Option (List String)
  workEnvironment : Option String
  compensationAndBenefits : Option String
  applicationInstructions : Option String
  companyName : Option String
deriving DecidableEq, Repr

/-- An `Application` document (`applicationSchema`): references one job,
one candidate and one resume; `status` is enum-constrained with default
`Submitted`. -/
structure ApplicationDoc where
  id : Id
  job : Id
  candidate : Id
  resume : Id
  status : String
deriving DecidableEq, Repr

/-- The persistent state: one list per Mongo collection plus the id
counter. -/
structure DB where
  users : List UserDoc
  recruiterProfiles : List RecruiterProfileDoc
  resumes : List ResumeDoc
  jobs : List JobDoc
  applications : List ApplicationDoc
  nextId : Id
deriving DecidableEq, Repr

/-- Mongoose updates one (the first) matching document; this applies `f` to
the first element satisfying `p` and keeps the rest unchanged. -/
def updateFirst (p : α → Bool) (f : α → α) : List α → List α
  | [] => []
  | x :: xs => if p x then f x :: xs else x :: updateFirst p f xs

/-- The closed role enumeration checked by `PUT /api/users/:id/role`. -/
def roleValues : List String := ["Candidate", "Recruiter", "Admin"]

/-- The closed `employmentType` enumeration of `jobSchema`. -/
def employmentTypes : List String := ["Full-time", "Part-time", "Contract", "Internship"]

/-! ## Credential store: `POST /register` and `POST /login` -/

/-- Profile data forwarded by `POST /register` when `role === 'Recruiter'`
(the `...profileData` rest of the body). -/
structure RecruiterProfilePayload where
  companyName : Option String
  industry : Option String
  recruiterEmail : Option String
deriving DecidableEq, Repr

/-- The `POST /register` handler.  `hashPw` stands for the one-way salted
hashing transform applied by the pre-save hook of `models/User.js` (that
file is not under `src/`; the hook is modelled from the spec as an opaque
function).  A duplicate username is rejected with `400 User already
exists` before anything is written; otherwise the user document (plus, for
recruiters, a profile document referenced by the user) is appended. -/
def register (hashPw : String → String) (db : DB) (username password role : String)
    (profile : RecruiterProfilePayload) : DB × Except Resp Unit :=
  match db.users.find? (fun u => u.username == username) with
  | some _ => (db, .error ⟨400, "User already exists"⟩)
  | none =>
    let uid := db.nextId
    if role == "Recruiter" then
      let pid := db.nextId + 1
      ({ db with
          users := db.users ++ [⟨uid, username, hashPw password, role, some pid⟩]
          recruiterProfiles := db.recruiterProfiles ++
            [⟨pid, uid, profile.companyName, profile.industry, profile.recruiterEmail⟩]
          nextId := db.nextId + 2 }, .ok ())
    else
      ({ db with
          users := db.users ++ [⟨uid, username, hashPw password, role, none⟩]
          nextId := db.nextId + 1 }, .ok ())

/-- A token as produced by `jwt.sign(payload, secret, {expiresIn: '5h'})`,
modelled as an ideal signature: the payload, the issue and expiry times in
seconds, and the signing key baked into the signature. -/
structure Token where
  userId : Id
  role : String
  iat : Nat
  exp : Nat
  key : String
deriving DecidableEq, Repr

/-- The decoded `{user: {id, role}}` payload a verified token yields. -/
structure TokenPayload where
  userId : Id
  role : String
deriving DecidableEq, Repr

/-- The token `POST /login` signs: payload `{id, role}`, expiry five hours
(18000 seconds) from issuance, signed with the process-wide secret. -/
def signToken (secret : String) (userId : Id) (role : String) (now : Nat) : Token :=
  ⟨userId, role, now, now + 5 * 3600, secret⟩

/-- The `POST /login` handler.  `compare` stands for `bcrypt.compare`
(plaintext against stored hash).  Unknown username and hash mismatch both
answer `400 Invalid credentials`. -/
def login (compare : String → String → Bool) (secret : String) (now : Nat)
    (db : DB) (username password : String) : Except Resp Token :=
  match db.users.find? (fun u => u.username == username) with
  | none => .error ⟨400, "Invalid credentials"⟩
  | some u =>
    if compare password u.password then
      .ok (signToken secret u.id u.role now)
    else
      .error ⟨400, "Invalid credentials"⟩

/-! ## Token service: the `auth` middleware -/

/-- What the `x-auth-token` header can carry: nothing, a string that is not
a well-formed token, or a (well-formed, ideally signed) token. -/
inductive AuthHeader
  | absent
  | malformed
  | signed (t : Token)
deriving DecidableEq, Repr

/-- `jwt.verify(token, secret)` at time `now`: succeeds with the decoded
payload iff the signature was made with `secret` and the token is not yet
expired (jsonwebtoken rejects once `now ≥ exp`). -/
def jwtVerify (secret : String) (now : Nat) (t : Token) : Option TokenPayload :=
  if t.key == secret && now < t.exp then some ⟨t.userId, t.role⟩ else none

/-- The `auth` middleware: `401 No token...` when the header is absent,
otherwise `jwt.verify`, answering `401 Token is not valid` when it throws. -/
def auth (secret : String) (now : Nat) : AuthHeader → Except Resp TokenPayload
  | .absent => .error ⟨401, "No token, authorization denied"⟩
  | .malformed => .error ⟨401, "Token is not valid"⟩
  | .signed t =>
    match jwtVerify secret now t with
    | some p => .ok p
    | none => .error ⟨401, "Token is not valid"⟩

/-! ## Access control guard: `isCandidate`, `isAdmin`, `isRecruiter` -/

/-- The `isCandidate` middleware: `none` means `next()` (allow), `some r`
means the request is rejected with response `r`. -/
def isCandidate (role : String) : Option Resp :=
  if role != "Candidate" then some ⟨403, "Only candidates can perform this action."⟩
  else none

/-- The `isAdmin` middleware. -/
def isAdmin (role : String) : Option Resp :=
  if role != "Admin" then some ⟨403, "Admin access denied"⟩
  else none

/-- The `isRecruiter` middleware (note the source uses status 401 here,
unlike the 403 of the other two checks). -/
def isRecruiter (role : String) : Option Resp :=
  if role != "Recruiter" then some ⟨401, "Only recruiters can access this route"⟩
  else none

/-! ## Workflow engine: resumes -/

/-- One `$set` step: a field present in the update document overwrites the
stored value, an absent field leaves it alone. -/
def setField (new old : Option String) : Option String :=
  match new with
  | some v => some v
  | none => old

/-- Apply the operator-free update document
`{...req.body, user: req.user.id}` to an existing resume, as Mongoose's
implicit `$set` does: the `user` field is always set (to the caller's id);
each other field is overwritten only when present in the body. -/
def resumeSet (uid : Id) (p : ResumePayload) (r : ResumeDoc) : ResumeDoc :=
  { id := r.id
    user := uid
    personalInfo := setField p.personalInfo r.personalInfo
    summary := setField p.summary r.summary
    experience := setField p.experience r.experience
    education := setField p.education r.education
    skills := setField p.skills r.skills
    projects := setField p.projects r.projects
    links := setField p.links r.links
    awards := setField p.awards r.awards
    template := p.template.getD r.template }

/-- The document `upsert: true` inserts when no resume matches the filter
`{user: req.user.id}`: the `$set` fields plus the schema default
`template = classic`. -/
def resumeInsert (id uid : Id) (p : ResumePayload) : ResumeDoc :=
  { id := id
    user := uid
    personalInfo := p.personalInfo
    summary := p.summary
    experience := p.experience
    education := p.education
    skills := p.skills
    projects := p.projects
    links := p.links
    awards := p.awards
    template := p.template.getD ("classic") }

/-- The `POST /api/resume` handler:
`Resume.findOneAndUpdate({user}, {...body, user}, {new, upsert,
runValidators})`.  `resumeSchema` has no required field, so validation
always passes and the handler always answers `201 Resume saved
successfully!`. -/
def saveResume (db : DB) (uid : Id) (p : ResumePayload) : DB × Resp :=
  match db.resumes.find? (fun r => r.user == uid) with
  | some _ =>
    ({ db with
        resumes := updateFirst (fun r => r.user == uid) (resumeSet uid p) db.resumes },
     ⟨201, "Resume saved successfully!"⟩)
  | none =>
    ({ db with
        resumes := db.resumes ++ [resumeInsert db.nextId uid p]
        nextId := db.nextId + 1 },
     ⟨201, "Resume saved successfully!"⟩)

/-! ## Workflow engine: jobs -/

/-- Mongoose validation of `newJob.save()`: all `required` paths present
(`recruiter` is always set by the handler) and `employmentType` inside its
enum.  On success this is the saved document (list fields defaulting to
`[]`); on failure `save` throws. -/
def jobOfPayload (id uid : Id) (p : JobPayload) : Option JobDoc :=
  match p.jobTitle, p.location, p.employmentType, p.jobSummary, p.companyName with
  | some title, some loc, some emp, some summ, some comp =>
    if employmentTypes.contains emp then
      some
        { id := id
          recruiter := uid
          jobTitle := title
          department := p.department
          reportsTo := p.reportsTo
          location := loc
          employmentType := emp
          jobSummary := summ
          keyResponsibilities := p.keyResponsibilities.getD []
          requiredQualifications := p.requiredQualifications.getD []
          preferredQualifications := p.preferredQualifications.getD []
          coreCompetencies := p.coreCompetencies.getD []
          workEnvironment := p.workEnvironment
          compensationAndBenefits := p.compensationAndBenefits
          applicationInstructions := p.applicationInstructions
          companyName := comp }
    else none
  | _, _, _, _, _ => none

/-- The validity condition `newJob.save()` checks, spelled out on the
payload: all `required` paths of `jobSchema` present and `employmentType`
inside its enum (`recruiter` is always set by the handler, so it cannot be
the missing one). -/
def validJobPayload (p : JobPayload) : Bool :=
  p.jobTitle.isSome && p.location.isSome &&
    (match p.employmentType with
     | some e => employmentTypes.contains e
     | none => false) &&
    p.jobSummary.isSome && p.companyName.isSome

/-- The `POST /jobs` handler: `new Job({...req.body, recruiter:
req.user.id})` then `save()`.  A validation failure is caught by the same
`catch` as a storage failure and answered with the generic
`500 Server Error`; nothing distinguishes the two. -/
def createJob (db : DB) (uid : Id) (p : JobPayload) : DB × Except Resp JobDoc :=
  match jobOfPayload db.nextId uid p with
  | some j =>
    ({ db with jobs := db.jobs ++ [j], nextId := db.nextId + 1 }, .ok j)
  | none => (db, .error serverError)

/-- The `DELETE /jobs/:id` handler: `404` when the job is absent, `401`
when the caller does not own it, otherwise `Job.deleteOne({_id})` followed
by `Application.deleteMany({job})`. -/
def deleteJob (db : DB) (uid : Id) (jobId : Id) : DB × Except Resp Unit :=
  match db.jobs.find? (fun j => j.id == jobId) with
  | none => (db, .error ⟨404, "Job not found"⟩)
  | some j =>
    if j.recruiter != uid then
      (db, .error ⟨401, "User not authorized"⟩)
    else
      ({ db with
          jobs := db.jobs.eraseP (fun x => x.id == jobId)
          applications := db.applications.filter (fun a => !(a.job == jobId)) },
       .ok ())

/-! ## Workflow engine: applications -/

/-- The `POST /api/jobs/:id/apply` handler: `404` when the job is absent,
`400` when the candidate has no saved resume, `400` when an application for
the (job, candidate) pair already exists, otherwise a new application
referencing the candidate's current resume is saved with the schema
default `status = Submitted`. -/
def applyToJob (db : DB) (uid : Id) (jobId : Id) : DB × Except Resp ApplicationDoc :=
  match db.jobs.find? (fun j => j.id == jobId) with
  | none => (db, .error ⟨404, "Job not found"⟩)
  | some _ =>
    match db.resumes.find? (fun r => r.user == uid) with
    | none => (db, .error ⟨400, "You must have a saved resume to apply."⟩)
    | some resume =>
      match db.applications.find? (fun a => a.job == jobId && a.candidate == uid) with
      | some _ => (db, .error ⟨400, "You have already applied for this job."⟩)
      | none =>
        let newApp : ApplicationDoc := ⟨db.nextId, jobId, uid, resume.id, "Submitted"⟩
        ({ db with
            applications := db.applications ++ [newApp]
            nextId := db.nextId + 1 },
         .ok newApp)

/-! ## Admin: `PUT /api/users/:id/role` -/

/-- The `PUT /api/users/:id/role` handler: the role-enum check runs first
(before the target is even looked up), then `404` when the target is
absent, then `400 You cannot change your own role.` when the admin targets
their own account, otherwise the role is updated and saved. -/
def changeRole (db : DB) (actorId targetId : Id) (role : String) :
    DB × Except Resp UserDoc :=
  if !(roleValues.contains role) then
    (db, .error ⟨400, "Invalid role specified."⟩)
  else
    match db.users.find? (fun u => u.id == targetId) with
    | none => (db, .error ⟨404, "User not found"⟩)
    | some u =>
      if u.id == actorId then
        (db, .error ⟨400, "You cannot change your own role."⟩)
      else
        ({ db with
            users := updateFirst (fun x => x.id == targetId)
              (fun x => { x with role := role }) db.users },
         .ok { u with role := role })

/-! ## General lemmas about the list-level Mongo operations -/

theorem updateFirst_mem {p : α → Bool} {f : α → α} :
    ∀ {l : List α} {x : α}, x ∈ updateFirst p f l →
      x ∈ l ∨ ∃ y, y ∈ l ∧ p y = true ∧ x = f y := by
  intro l
  induction l with
  | nil => intro x hx; cases hx
  | cons a t ih =>
    intro x hx
    by_cases ha : p a = true
    · simp [updateFirst, ha] at hx
      rcases hx with hx | hx
      · exact Or.inr ⟨a, List.mem_cons_self a t, ha, hx⟩
      · exact Or.inl (List.mem_cons_of_mem a hx)
    · simp [updateFirst, ha] at hx
      rcases hx with hx | hx
      · exact Or.inl (hx ▸ List.mem_cons_self a t)
      · rcases ih hx with h | ⟨y, hy, hpy, hxy⟩
        · exact Or.inl (List.mem_cons_of_mem a h)
        · exact Or.inr ⟨y, List.mem_cons_of_mem a hy, hpy, hxy⟩

theorem updateFirst_idem {p : α → Bool} {f : α → α}
    (hp : ∀ x, p x = true → p (f x) = true)
    (hf : ∀ x, p x = true → f (f x) = f x) :
    ∀ l : List α, updateFirst p f (updateFirst p f l) = updateFirst p f l := by
  intro l
  induction l with
  | nil => rfl
  | cons a t ih =>
    by_cases ha : p a = true
    · simp [updateFirst, ha, hp a ha, hf a ha]
    · simp [updateFirst, ha, ih]

theorem find?_updateFirst {p : α → Bool} {f : α → α}
    (hp : ∀ x, p x = true → p (f x) = true) :
    ∀ {l : List α} {r : α}, l.find? p = some r →
      (updateFirst p f l).find? p = some (f r) := by
  intro l
  induction l with
  | nil => intro r hr; cases hr
  | cons a t ih =>
    intro r hr
    by_cases ha : p a = true
    · rw [List.find?_cons_of_pos _ ha] at hr
      cases hr
      simp [updateFirst, ha, List.find?_cons_of_pos _ (hp a ha)]
    · rw [List.find?_cons_of_neg _ (by simpa using ha)] at hr
      simp [updateFirst, ha, List.find?_cons_of_neg _ (by simpa using ha)]
      exact ih hr

theorem filter_updateFirst_length {p : α → Bool} {f : α → α}
    (hp : ∀ x, p x = true → p (f x) = true) :
    ∀ l : List α, ((updateFirst p f l).filter p).length = (l.filter p).length := by
  intro l
  induction l with
  | nil => rfl
  | cons a t ih =>
    by_cases ha : p a = true
    · simp [updateFirst, ha, List.filter_cons, hp a ha]
    · simp [updateFirst, ha, List.filter_cons, ih]

theorem updateFirst_append_of_none {p : α → Bool} {f : α → α} :
    ∀ {l₁ : List α}, l₁.find? p = none → ∀ l₂ : List α,
      updateFirst p f (l₁ ++ l₂) = l₁ ++ updateFirst p f l₂ := by
  intro l₁
  induction l₁ with
  | nil => intro _ l₂; rfl
  | cons a t ih =>
    intro h l₂
    rw [List.find?_cons] at h
    cases ha : p a with
    | true => rw [ha] at h; cases h
    | false =>
      rw [ha] at h
      simp [updateFirst, ha, ih h l₂]

theorem mem_eraseP_of_unique {p : α → Bool} :
    ∀ {l : List α}, (l.filter p).length ≤ 1 →
      ∀ x, x ∈ l.eraseP p ↔ x ∈ l ∧ p x = false := by
  intro l
  induction l with
  | nil => intro _ x; simp
  | cons a t ih =>
    intro h x
    cases ha : p a with
    | true =>
      rw [List.eraseP_cons_of_pos ha]
      rw [List.filter_cons, if_pos (by simp [ha])] at h
      simp at h
      constructor
      · intro hx
        exact ⟨List.mem_cons_of_mem a hx, h x hx⟩
      · intro ⟨hx, hpx⟩
        rcases List.mem_cons.mp hx with heq | hx
        · rw [heq, ha] at hpx; cases hpx
        · exact hx
    | false =>
      rw [List.eraseP_cons_of_neg (by simp [ha])]
      rw [List.filter_cons, if_neg (by simp [ha])] at h
      constructor
      · intro hx
        rcases List.mem_cons.mp hx with heq | hx
        · refine ⟨List.mem_cons.mpr (Or.inl heq), ?_⟩
          rw [heq]; exact ha
        · have := (ih h x).mp hx
          exact ⟨List.mem_cons_of_mem a this.1, this.2⟩
      · intro ⟨hx, hpx⟩
        rcases List.mem_cons.mp hx with heq | hx
        · exact List.mem_cons.mpr (Or.inl heq)
        · exact List.mem_cons_of_mem a ((ih h x).mpr ⟨hx, hpx⟩)

theorem filter_beq_length_le_one {β : Type} [DecidableEq β] (g : α → β) (c : β) :
    ∀ l : List α, (l.map g).Nodup → (l.filter (fun x => g x == c)).length ≤ 1 := by
  intro l
  induction l with
  | nil => intro _; simp
  | cons a t ih =>
    intro h
    rw [List.map_cons, List.nodup_cons] at h
    rw [List.filter_cons]
    cases hc : (g a == c) with
    | false => simpa using ih h.2
    | true =>
      have hac : g a = c := by simpa using hc
      have ht : t.filter (fun x => g x == c) = [] := by
        refine List.filter_eq_nil_iff.mpr ?_
        intro y hy hpy
        have hyc : g y = c := by simpa using hpy
        have hmem : g y ∈ List.map g t := List.mem_map_of_mem g hy
        rw [hyc, ← hac] at hmem
        exact h.1 hmem
      simp [ht]

/-! ## Concrete fixtures used by witnesses and counterexamples -/

/-- A small database: an admin, a candidate (id 2) holding the resume
with id 3, and a job (id 4) owned by recruiter id 5. -/
def sampleDb : DB :=
  { users := [⟨1, "admin", "ha", "Admin", none⟩, ⟨2, "carol", "hc", "Candidate", none⟩]
    recruiterProfiles := []
    resumes := [⟨3, 2, none, some ("old summary"), none, none, some ("old skills"),
      none, none, none, "classic"⟩]
    jobs := [⟨4, 5, "Dev", none, none, "NYC", "Full-time", "Build things",
      [], [], [], [], none, none, none, "Acme"⟩]
    applications := []
    nextId := 10 }

/-- A resume payload that carries a new summary (and a foreign `user`
value) but no skills field. -/
def samplePayload : ResumePayload :=
  { user := some 99
    personalInfo := none
    summary := some ("new summary")
    experience := none
    education := none
    skills := none
    projects := none
    links := none
    awards := none
    template := none }

/-- A job payload with every field absent: every required path of
`jobSchema` is missing. -/
def emptyJobPayload : JobPayload :=
  ⟨none, none, none, none, none, none, none, none, none, none, none, none, none, none, none⟩

/-- A job payload with all required fields present and a valid
employment type. -/
def goodJobPayload : JobPayload :=
  { recruiter := some 42
    jobTitle := some ("Dev")
    department := none
    reportsTo := none
    location := some ("NYC")
    employmentType := some ("Contract")
    jobSummary := some ("Write code")
    keyResponsibilities := none
    requiredQualifications := none
    preferredQualifications := none
    coreCompetencies := none
    workEnvironment := none
    compensationAndBenefits := none
    applicationInstructions := none
    companyName := some ("Acme") }

/-- A sample password comparison standing in for `bcrypt.compare`. -/
def sampleCompare (plain stored : String) : Bool := ("h" ++ plain) == stored

/-- A sample hashing transform standing in for the pre-save bcrypt hook. -/
def sampleHash (plain : String) : String := "h" ++ plain

/-! ## Claim theorems -/

/-- C9: `isCandidate` allows exactly the Candidate role and otherwise
denies with the 403 Forbidden response; `isAdmin` allows exactly the Admin
role and otherwise denies with 403; `isRecruiter` allows exactly the
Recruiter role and otherwise denies with 401, a response distinct from any
denial of the other two checks. -/
theorem guard_roles_contract (role other : String) :
    (isCandidate role = none ↔ role = "Candidate") ∧
    (role ≠ "Candidate" →
      isCandidate role = some ⟨403, "Only candidates can perform this action."⟩) ∧
    (isAdmin role = none ↔ role = "Admin") ∧
    (role ≠ "Admin" → isAdmin role = some ⟨403, "Admin access denied"⟩) ∧
    (isRecruiter role = none ↔ role = "Recruiter") ∧
    (role ≠ "Recruiter" →
      isRecruiter role = some ⟨401, "Only recruiters can access this route"⟩) ∧
    (∀ r r', isRecruiter role = some r →
      (isCandidate other = some r' ∨ isAdmin other = some r') → r ≠ r') := by
  refine ⟨?_, ?_, ?_, ?_, ?_, ?_, ?_⟩
  · by_cases h : role = "Candidate" <;> simp [isCandidate, h]
  · intro h; simp [isCandidate, h]
  · by_cases h : role = "Admin" <;> simp [isAdmin, h]
  · intro h; simp [isAdmin, h]
  · by_cases h : role = "Recruiter" <;> simp [isRecruiter, h]
  · intro h; simp [isRecruiter, h]
  · intro r r' hr hor
    have hrs : r.status = 401 := by
      by_cases h : role = "Recruiter"
      · simp [isRecruiter, h] at hr
      · simp [isRecruiter, h] at hr
        rw [← hr]
    have hrs' : r'.status = 403 := by
      rcases hor with hc | ha
      · by_cases h : other = "Candidate"
        · simp [isCandidate, h] at hc
        · simp [isCandidate, h] at hc
          rw [← hc]
      · by_cases h : other = "Admin"
        · simp [isAdmin, h] at ha
        · simp [isAdmin, h] at ha
          rw [← ha]
    intro heq
    rw [heq, hrs'] at hrs
    cases hrs

/-- C9 witness: a Candidate hitting the recruiter guard is denied with the
401 response, and that response differs from the candidate guard's 403. -/
theorem guard_roles_contract_witness :
    isRecruiter ("Candidate") = some ⟨401, "Only recruiters can access this route"⟩ ∧
    (∀ r r', isRecruiter ("Candidate") = some r →
      (isCandidate ("Admin") = some r' ∨ isAdmin ("Admin") = some r') → r ≠ r') := by
  have h := guard_roles_contract ("Candidate") ("Admin")
  exact ⟨h.2.2.2.2.2.1 (by decide), h.2.2.2.2.2.2⟩

/-- C5: login answers the identical `400 Invalid credentials` response both
when the username is unknown and when the username exists but the stored
hash does not match the supplied secret, so the caller cannot tell the two
failure causes apart. -/
theorem login_invalid_credentials (compare : String → String → Bool)
    (secret : String) (now : Nat) (db : DB) (username password : String) :
    (db.users.find? (fun u => u.username == username) = none →
      login compare secret now db username password =
        .error ⟨400, "Invalid credentials"⟩) ∧
    (∀ u, db.users.find? (fun u => u.username == username) = some u →
      compare password u.password = false →
      login compare secret now db username password =
        .error ⟨400, "Invalid credentials"⟩) := by
  constructor
  · intro h
    simp [login, h]
  · intro u hu hc
    simp [login, hu, hc]

/-- C5 witness: on the sample database, an unknown username and a known
username with a wrong secret produce the very same response. -/
theorem login_invalid_credentials_witness :
    login sampleCompare ("k") 0 sampleDb ("nobody") ("pw") =
      .error ⟨400, "Invalid credentials"⟩ ∧
    login sampleCompare ("k") 0 sampleDb ("carol") ("wrong") =
      .error ⟨400, "Invalid credentials"⟩ := by
  constructor
  · exact (login_invalid_credentials sampleCompare ("k") 0 sampleDb ("nobody") ("pw")).1
      (by decide)
  · exact (login_invalid_credentials sampleCompare ("k") 0 sampleDb ("carol") ("wrong")).2
      ⟨2, "carol", "hc", "Candidate", none⟩ (by decide) (by decide)

/-- C6: a token issued by login verifies (yielding the encoded user id and
role) at any time strictly before five hours (18000 seconds) after
issuance, and the `auth` middleware answers a 401 response when the token
is absent, malformed, expired, or signed with a key other than the
process-wide secret; every failure of `auth` carries status 401. -/
theorem token_verify_contract (secret : String) (uid : Id) (role : String)
    (iat now : Nat) :
    (now < iat + 5 * 3600 →
      auth secret now (.signed (signToken secret uid role iat)) = .ok ⟨uid, role⟩) ∧
    (iat + 5 * 3600 ≤ now →
      auth secret now (.signed (signToken secret uid role iat)) =
        .error ⟨401, "Token is not valid"⟩) ∧
    (auth secret now .absent = .error ⟨401, "No token, authorization denied"⟩) ∧
    (auth secret now .malformed = .error ⟨401, "Token is not valid"⟩) ∧
    (∀ key, key ≠ secret →
      auth secret now (.signed (signToken key uid role iat)) =
        .error ⟨401, "Token is not valid"⟩) ∧
    (∀ hdr r, auth secret now hdr = .error r → r.status = 401) := by
  refine ⟨?_, ?_, rfl, rfl, ?_, ?_⟩
  · intro h
    simp [auth, jwtVerify, signToken, h]
  · intro h
    have h' : ¬ now < iat + 5 * 3600 := Nat.not_lt.mpr h
    simp [auth, jwtVerify, signToken, h']
  · intro key hk
    simp [auth, jwtVerify, signToken, hk]
  · intro hdr r hr
    cases hdr with
    | absent =>
      simp [auth] at hr
      rw [← hr]
    | malformed =>
      simp [auth] at hr
      rw [← hr]
    | signed t =>
      cases hv : jwtVerify secret now t with
      | some p => simp [auth, hv] at hr
      | none =>
        simp [auth, hv] at hr
        rw [← hr]

/-- C6 witness: a token signed at time 0 verifies at time 17999, fails at
time 18000, and a token signed with another key fails. -/
theorem token_verify_contract_witness :
    auth ("s") 17999 (.signed (signToken ("s") 7 ("Candidate") 0)) =
      .ok ⟨7, "Candidate"⟩ ∧
    auth ("s") 18000 (.signed (signToken ("s") 7 ("Candidate") 0)) =
      .error ⟨401, "Token is not valid"⟩ ∧
    auth ("s") 0 (.signed (signToken ("other") 7 ("Candidate") 0)) =
      .error ⟨401, "Token is not valid"⟩ := by
  have h := token_verify_contract ("s") 7 ("Candidate") 0 17999
  have h' := token_verify_contract ("s") 7 ("Candidate") 0 18000
  have h'' := token_verify_contract ("s") 7 ("Candidate") 0 0
  exact ⟨h.1 (by decide), h'.2.1 (by decide), h''.2.2.2.2.1 ("other") (by decide)⟩

theorem jobOfPayload_isSome (id uid : Id) (p : JobPayload) :
    (jobOfPayload id uid p).isSome = validJobPayload p := by
  rcases p with ⟨rec, title, dep, rep, loc, emp, summ, kr, rq, pq, cc, we, cb, ai, comp⟩
  cases title <;> cases loc <;> cases emp <;> cases summ <;> cases comp <;>
    simp [jobOfPayload, validJobPayload]
  split <;> simp_all

theorem jobOfPayload_fields (id uid : Id) (q : JobPayload) (j : JobDoc)
    (h : jobOfPayload id uid q = some j) : j.recruiter = uid ∧ j.id = id := by
  rcases q with ⟨rec, title, dep, rep, loc, emp, summ, kr, rq, pq, cc, we, cb, ai, comp⟩
  cases title <;> cases loc <;> cases emp <;> cases summ <;> cases comp <;>
    simp [jobOfPayload] at h
  obtain ⟨-, hj⟩ := h
  rw [← hj]
  exact ⟨rfl, rfl⟩

/-- C3 (amended): the role-enum check of `PUT /api/users/:id/role` runs
before everything else, so an out-of-set role always fails with the
`Invalid role specified.` response — even when the actor targets
themselves — and with a valid role an admin targeting their own account
fails with the `You cannot change your own role.` response; the database
(hence the target's role) is unchanged in both cases. -/
theorem changeRole_self_and_invalid (db : DB) (actorId targetId : Id) (role : String) :
    (roleValues.contains role = false →
      changeRole db actorId targetId role =
        (db, .error ⟨400, "Invalid role specified."⟩)) ∧
    (roleValues.contains role = true →
      ∀ u, db.users.find? (fun x => x.id == targetId) = some u → u.id = actorId →
        changeRole db actorId targetId role =
          (db, .error ⟨400, "You cannot change your own role."⟩)) := by
  constructor
  · intro h
    have h' : role ∉ roleValues := by simpa using h
    simp [changeRole, h']
  · intro h u hu hid
    have h' : role ∈ roleValues := by simpa using h
    simp [changeRole, h', hu, hid]

/-- C3 witness: with the valid role `Recruiter`, the admin (id 1) targeting
their own account is rejected with the self-modification response and the
database is unchanged. -/
theorem changeRole_self_witness :
    changeRole sampleDb 1 1 ("Recruiter") =
      (sampleDb, .error ⟨400, "You cannot change your own role."⟩) :=
  (changeRole_self_and_invalid sampleDb 1 1 ("Recruiter")).2 (by decide)
    ⟨1, "admin", "ha", "Admin", none⟩ (by rfl) (by decide)

/-- C3 counterexample: the claim as stated says `changeRole(admin, admin,
anyRole)` fails with SelfModification for every role value, but with the
invalid role `Unicorn` the handler answers the `Invalid role specified.`
response, which is not the self-modification response. -/
theorem changeRole_self_invalid_counterexample :
    (changeRole sampleDb 1 1 ("Unicorn")).2 = .error ⟨400, "Invalid role specified."⟩ ∧
    (changeRole sampleDb 1 1 ("Unicorn")).2 ≠
      .error ⟨400, "You cannot change your own role."⟩ := by
  constructor
  · rfl
  · intro h
    rw [show (changeRole sampleDb 1 1 ("Unicorn")).2 =
      Except.error ⟨400, "Invalid role specified."⟩ from rfl] at h
    injection h with h'
    exact absurd h' (by decide)

/-- C4 (amended): `createJob` fails whenever a required field (title,
location, employment type, summary, company name) is missing or the
employment type is outside the fixed enum, and no Job is created; but the
failure is the generic `500 Server Error` response — the same value every
`catch` block sends for persistence failures — not a distinguishable
ValidationError variant. -/
theorem createJob_invalid_generic_failure (db : DB) (uid : Id) (p : JobPayload) :
    validJobPayload p = false →
    createJob db uid p = (db, .error serverError) := by
  intro h
  have hnone : jobOfPayload db.nextId uid p = none := by
    have hs := jobOfPayload_isSome db.nextId uid p
    rw [h] at hs
    cases ho : jobOfPayload db.nextId uid p with
    | none => rfl
    | some j => rw [ho] at hs; cases hs
  simp [createJob, hnone]

/-- C4 witness: a payload whose only flaw is the out-of-enum employment
type `Freelance` is rejected with the generic failure and creates
nothing. -/
theorem createJob_invalid_witness :
    createJob sampleDb 1 { goodJobPayload with employmentType := some ("Freelance") } =
      (sampleDb, .error serverError) :=
  createJob_invalid_generic_failure sampleDb 1
    { goodJobPayload with employmentType := some ("Freelance") } (by decide)

/-- C4 counterexample: the claim as stated requires a ValidationError
variant distinct from the generic internal failure, but a payload missing
every required field is answered with exactly the `serverError` value the
`catch` blocks send for storage failures (status 500, `Server Error`). -/
theorem createJob_validation_counterexample :
    createJob sampleDb 1 emptyJobPayload = (sampleDb, .error serverError) ∧
    serverError.status = 500 := ⟨rfl, rfl⟩

/-- C7: a second registration under an existing username always fails with
the `User already exists` response, whatever the role, and writes nothing;
and `register` preserves the username-uniqueness invariant. -/
theorem register_conflict_and_uniqueness (hashPw : String → String) (db : DB)
    (username password role : String) (profile : RecruiterProfilePayload) :
    (∀ u, db.users.find? (fun x => x.username == username) = some u →
      register hashPw db username password role profile =
        (db, .error ⟨400, "User already exists"⟩)) ∧
    ((db.users.map (fun u => u.username)).Nodup →
      ((register hashPw db username password role profile).1.users.map
        (fun u => u.username)).Nodup) := by
  constructor
  · intro u hu
    simp [register, hu]
  · intro hnd
    cases hfind : db.users.find? (fun x => x.username == username) with
    | some u =>
      simp [register, hfind]
      exact hnd
    | none =>
      have hnotin : username ∉ db.users.map (fun u => u.username) := by
        intro hmem
        rcases List.mem_map.mp hmem with ⟨u, hu, huname⟩
        have hnp := List.find?_eq_none.mp hfind u hu
        simp [huname] at hnp
      have key : ∀ nu : UserDoc, nu.username = username →
          ((db.users ++ [nu]).map (fun u => u.username)).Nodup := by
        intro nu hname
        rw [List.map_append, List.nodup_append]
        refine ⟨hnd, by simp, ?_⟩
        intro x hx hx2
        simp [hname] at hx2
        rw [hx2] at hx
        exact hnotin hx
      by_cases hrole : (role == "Recruiter") = true
      · have husers : (register hashPw db username password role profile).1.users =
            db.users ++ [⟨db.nextId, username, hashPw password, role, some (db.nextId + 1)⟩] := by
          simp [register, hfind, hrole]
        rw [husers]
        exact key ⟨db.nextId, username, hashPw password, role, some (db.nextId + 1)⟩ rfl
      · have husers : (register hashPw db username password role profile).1.users =
            db.users ++ [⟨db.nextId, username, hashPw password, role, none⟩] := by
          simp [register, hfind, hrole]
        rw [husers]
        exact key ⟨db.nextId, username, hashPw password, role, none⟩ rfl

/-- C7 witness: re-registering `carol` (already present in the sample
database), as a Recruiter this time, is rejected with the conflict
response and leaves the database unchanged. -/
theorem register_conflict_witness :
    register sampleHash sampleDb ("carol") ("pw") ("Recruiter") ⟨none, none, none⟩ =
      (sampleDb, .error ⟨400, "User already exists"⟩) :=
  (register_conflict_and_uniqueness sampleHash sampleDb ("carol") ("pw") ("Recruiter")
    ⟨none, none, none⟩).1 ⟨2, "carol", "hc", "Candidate", none⟩ (by rfl)

/-- C1: `applyToJob` fails with 404 if the job is absent; fails with the
`You must have a saved resume to apply.` response (writing nothing) if the
candidate has no resume; fails with the `You have already applied`
response (writing nothing) if an application for the (job, candidate) pair
exists; otherwise appends exactly one application whose `resume` field is
the candidate's current resume id and whose `status` is `Submitted`. -/
theorem apply_contract (db : DB) (uid jobId : Id) :
    (db.jobs.find? (fun j => j.id == jobId) = none →
      applyToJob db uid jobId = (db, .error ⟨404, "Job not found"⟩)) ∧
    ((db.jobs.find? (fun j => j.id == jobId)).isSome = true →
      db.resumes.find? (fun r => r.user == uid) = none →
      applyToJob db uid jobId =
        (db, .error ⟨400, "You must have a saved resume to apply."⟩)) ∧
    ((db.jobs.find? (fun j => j.id == jobId)).isSome = true →
      (db.resumes.find? (fun r => r.user == uid)).isSome = true →
      (db.applications.find? (fun a => a.job == jobId && a.candidate == uid)).isSome = true →
      applyToJob db uid jobId =
        (db, .error ⟨400, "You have already applied for this job."⟩)) ∧
    (∀ resume, (db.jobs.find? (fun j => j.id == jobId)).isSome = true →
      db.resumes.find? (fun r => r.user == uid) = some resume →
      db.applications.find? (fun a => a.job == jobId && a.candidate == uid) = none →
      applyToJob db uid jobId =
        ({ db with
            applications := db.applications ++
              [⟨db.nextId, jobId, uid, resume.id, "Submitted"⟩]
            nextId := db.nextId + 1 },
         .ok ⟨db.nextId, jobId, uid, resume.id, "Submitted"⟩)) := by
  refine ⟨?_, ?_, ?_, ?_⟩
  · intro h
    simp [applyToJob, h]
  · intro hj hr
    rcases Option.isSome_iff_exists.mp hj with ⟨j, hj'⟩
    simp [applyToJob, hj', hr]
  · intro hj hr ha
    rcases Option.isSome_iff_exists.mp hj with ⟨j, hj'⟩
    rcases Option.isSome_iff_exists.mp hr with ⟨r, hr'⟩
    rcases Option.isSome_iff_exists.mp ha with ⟨a, ha'⟩
    simp [applyToJob, hj', hr', ha']
  · intro resume hj hr ha
    rcases Option.isSome_iff_exists.mp hj with ⟨j, hj'⟩
    simp [applyToJob, hj', hr, ha]

/-- C1 witness: candidate 2 (resume id 3) applies to job 4 on the sample
database; exactly one application is appended, referencing resume 3 with
status `Submitted`. -/
theorem apply_contract_witness :
    applyToJob sampleDb 2 4 =
      ({ sampleDb with
          applications := sampleDb.applications ++ [⟨10, 4, 2, 3, "Submitted"⟩]
          nextId := 11 },
       .ok ⟨10, 4, 2, 3, "Submitted"⟩) :=
  (apply_contract sampleDb 2 4).2.2.2
    ⟨3, 2, none, some ("old summary"), none, none, some ("old skills"),
      none, none, none, "classic"⟩
    (by rfl) (by rfl) (by rfl)

/-- C2: `deleteJob` fails with 404 if the job is absent; fails with 401 if
the job's `recruiter` differs from the caller; and on success removes the
job and exactly the applications whose `job` field equals that job's id,
touching nothing else. -/
theorem deleteJob_contract (db : DB) (uid jobId : Id) :
    (db.jobs.find? (fun j => j.id == jobId) = none →
      deleteJob db uid jobId = (db, .error ⟨404, "Job not found"⟩)) ∧
    (∀ j, db.jobs.find? (fun j => j.id == jobId) = some j → j.recruiter ≠ uid →
      deleteJob db uid jobId = (db, .error ⟨401, "User not authorized"⟩)) ∧
    (∀ j, db.jobs.find? (fun j => j.id == jobId) = some j → j.recruiter = uid →
      ((deleteJob db uid jobId).2 = .ok () ∧
       (∀ a, a ∈ (deleteJob db uid jobId).1.applications ↔
          a ∈ db.applications ∧ a.job ≠ jobId) ∧
       ((db.jobs.map (fun x => x.id)).Nodup →
          ∀ x, x ∈ (deleteJob db uid jobId).1.jobs ↔ x ∈ db.jobs ∧ x.id ≠ jobId) ∧
       (deleteJob db uid jobId).1.users = db.users ∧
       (deleteJob db uid jobId).1.resumes = db.resumes)) := by
  refine ⟨?_, ?_, ?_⟩
  · intro h
    simp [deleteJob, h]
  · intro j hj hne
    simp [deleteJob, hj, hne]
  · intro j hj hrec
    have hd : deleteJob db uid jobId =
        ({ db with
            jobs := db.jobs.eraseP (fun x => x.id == jobId)
            applications := db.applications.filter (fun a => !(a.job == jobId)) },
         .ok ()) := by
      simp [deleteJob, hj, hrec]
    refine ⟨by rw [hd], ?_, ?_, by rw [hd], by rw [hd]⟩
    · intro a
      rw [hd]
      simp [List.mem_filter]
    · intro hnd x
      rw [hd]
      have hle := filter_beq_length_le_one (fun x : JobDoc => x.id) jobId db.jobs hnd
      have := mem_eraseP_of_unique hle x
      simpa using this

/-- C2 witness: recruiter 5 deletes job 4 on a database where candidate 2
has applied to job 4 and to another job 6; the application to job 4 is
gone, the one to job 6 survives, and job 4 is gone. -/
theorem deleteJob_contract_witness :
    ((deleteJob
        { sampleDb with
            jobs := sampleDb.jobs ++ [⟨6, 5, "QA", none, none, "LA", "Part-time", "Test",
              [], [], [], [], none, none, none, "Acme"⟩]
            applications := [⟨7, 4, 2, 3, "Submitted"⟩, ⟨8, 6, 2, 3, "Submitted"⟩] }
        5 4).1.applications = [⟨8, 6, 2, 3, "Submitted"⟩]) ∧
    ((deleteJob
        { sampleDb with
            jobs := sampleDb.jobs ++ [⟨6, 5, "QA", none, none, "LA", "Part-time", "Test",
              [], [], [], [], none, none, none, "Acme"⟩]
            applications := [⟨7, 4, 2, 3, "Submitted"⟩, ⟨8, 6, 2, 3, "Submitted"⟩] }
        5 4).2 = .ok ()) := by
  have h := (deleteJob_contract
    { sampleDb with
        jobs := sampleDb.jobs ++ [⟨6, 5, "QA", none, none, "LA", "Part-time", "Test",
          [], [], [], [], none, none, none, "Acme"⟩]
        applications := [⟨7, 4, 2, 3, "Submitted"⟩, ⟨8, 6, 2, 3, "Submitted"⟩] }
    5 4).2.2
    ⟨4, 5, "Dev", none, none, "NYC", "Full-time", "Build things",
      [], [], [], [], none, none, none, "Acme"⟩
    (by rfl) (by rfl)
  exact ⟨by rfl, h.1⟩

theorem setField_idem (a b : Option String) : setField a (setField a b) = setField a b := by
  cases a <;> rfl

theorem setField_self (a : Option String) : setField a a = a := by
  cases a <;> rfl

theorem resumeSet_idem (uid : Id) (p : ResumePayload) (r : ResumeDoc) :
    resumeSet uid p (resumeSet uid p r) = resumeSet uid p r := by
  cases hp : p.template <;> simp [resumeSet, setField_idem, hp]

theorem resumeSet_insert (i uid : Id) (p : ResumePayload) :
    resumeSet uid p (resumeInsert i uid p) = resumeInsert i uid p := by
  cases hp : p.template <;> simp [resumeSet, resumeInsert, setField_self, hp]

theorem resumeSet_user_matches (uid : Id) (p : ResumePayload) (x : ResumeDoc) :
    ((resumeSet uid p x).user == uid) = true := by
  simp [resumeSet]

/-- C8 (amended): `saveResume` is an upsert keyed by the candidate id: the
HTTP answer is always `201 Resume saved successfully!`; if the candidate
had at most one resume they have exactly one afterwards; an existing
resume is updated field-wise (`$set`: payload fields overwrite, absent
fields are retained) rather than replaced; an absent resume is created
from the payload and the schema defaults; and repeating the same call
leaves the state unchanged (idempotence). -/
theorem saveResume_upsert (db : DB) (uid : Id) (p : ResumePayload) :
    ((saveResume db uid p).2 = ⟨201, "Resume saved successfully!"⟩) ∧
    ((db.resumes.filter (fun r => r.user == uid)).length ≤ 1 →
      ((saveResume db uid p).1.resumes.filter (fun r => r.user == uid)).length = 1) ∧
    (∀ r, db.resumes.find? (fun r => r.user == uid) = some r →
      (saveResume db uid p).1.resumes.find? (fun r => r.user == uid) =
        some (resumeSet uid p r)) ∧
    (db.resumes.find? (fun r => r.user == uid) = none →
      (saveResume db uid p).1.resumes.find? (fun r => r.user == uid) =
        some (resumeInsert db.nextId uid p)) ∧
    (saveResume (saveResume db uid p).1 uid p = saveResume db uid p) := by
  have hp : ∀ x : ResumeDoc, (x.user == uid) = true →
      ((resumeSet uid p x).user == uid) = true :=
    fun x _ => resumeSet_user_matches uid p x
  have hff : ∀ x : ResumeDoc, (x.user == uid) = true →
      resumeSet uid p (resumeSet uid p x) = resumeSet uid p x :=
    fun x _ => resumeSet_idem uid p x
  cases hf : db.resumes.find? (fun r => r.user == uid) with
  | some r0 =>
    have hd : saveResume db uid p =
        ({ db with
            resumes := updateFirst (fun r => r.user == uid) (resumeSet uid p) db.resumes },
         ⟨201, "Resume saved successfully!"⟩) := by
      simp [saveResume, hf]
    have hfind' : (updateFirst (fun r => r.user == uid) (resumeSet uid p)
        db.resumes).find? (fun r => r.user == uid) = some (resumeSet uid p r0) :=
      find?_updateFirst hp hf
    refine ⟨by rw [hd], ?_, ?_, ?_, ?_⟩
    · intro hle
      have hgoal : (saveResume db uid p).1.resumes =
          updateFirst (fun r => r.user == uid) (resumeSet uid p) db.resumes := by
        rw [hd]
      rw [hgoal]
      have hlen := filter_updateFirst_length hp db.resumes
      have hr0 : (r0.user == uid) = true := by
        have h2 := List.find?_some hf
        simpa using h2
      have hmem : r0 ∈ db.resumes.filter (fun r => r.user == uid) :=
        List.mem_filter.mpr ⟨List.mem_of_find?_eq_some hf, hr0⟩
      have hpos : 0 < (db.resumes.filter (fun r => r.user == uid)).length :=
        List.length_pos_of_mem hmem
      omega
    · intro r hr
      have heq : r0 = r := by injection hr
      subst heq
      rw [hd]
      exact hfind'
    · intro h
      exact Option.noConfusion h
    · rw [hd]
      simp [saveResume, hfind', updateFirst_idem hp hff]
  | none =>
    have hnew : ((resumeInsert db.nextId uid p).user == uid) = true := by
      simp [resumeInsert]
    have hd : saveResume db uid p =
        ({ db with
            resumes := db.resumes ++ [resumeInsert db.nextId uid p]
            nextId := db.nextId + 1 },
         ⟨201, "Resume saved successfully!"⟩) := by
      simp [saveResume, hf]
    have hnil : db.resumes.filter (fun r => r.user == uid) = [] :=
      List.filter_eq_nil_iff.mpr (fun x hx => by
        have := List.find?_eq_none.mp hf x hx
        simpa using this)
    have hfind' : (db.resumes ++ [resumeInsert db.nextId uid p]).find?
        (fun r => r.user == uid) = some (resumeInsert db.nextId uid p) := by
      rw [List.find?_append, hf]
      simp [List.find?, hnew]
    refine ⟨by rw [hd], ?_, ?_, ?_, ?_⟩
    · intro _
      rw [hd]
      simp only []
      rw [List.filter_append, hnil]
      simp [List.filter, hnew]
    · intro r hr
      exact Option.noConfusion hr
    · intro _
      rw [hd]
      exact hfind'
    · rw [hd]
      have happ : updateFirst (fun r => r.user == uid) (resumeSet uid p)
          (db.resumes ++ [resumeInsert db.nextId uid p]) =
          db.resumes ++ [resumeInsert db.nextId uid p] := by
        rw [updateFirst_append_of_none hf]
        simp [updateFirst, hnew, resumeSet_insert]
      simp [saveResume, hfind', happ]

/-- C8 witness: on the sample database (candidate 2 already has one
resume) saving a payload that only carries a new summary leaves exactly
one resume, which is the field-wise update of the stored one. -/
theorem saveResume_upsert_witness :
    ((saveResume sampleDb 2 samplePayload).1.resumes.filter
      (fun r => r.user == 2)).length = 1 ∧
    (saveResume sampleDb 2 samplePayload).1.resumes.find? (fun r => r.user == 2) =
      some (resumeSet 2 samplePayload
        ⟨3, 2, none, some ("old summary"), none, none, some ("old skills"),
          none, none, none, "classic"⟩) := by
  have h := saveResume_upsert sampleDb 2 samplePayload
  exact ⟨h.2.1 (by decide),
    h.2.2.1 ⟨3, 2, none, some ("old summary"), none, none, some ("old skills"),
      none, none, none, "classic"⟩ (by rfl)⟩

/-- C8 counterexample: the claim as stated says the surviving resume's
content is that of the last payload, but after saving a payload without a
`skills` field the stored `skills` value survives (Mongoose `$set`
merge), so the result differs from a document built from the payload
alone. -/
theorem saveResume_replace_counterexample :
    ((saveResume sampleDb 2 samplePayload).1.resumes.find?
        (fun r => r.user == 2)).map (fun r => r.skills) = some (some ("old skills")) ∧
    samplePayload.skills = none ∧
    (saveResume sampleDb 2 samplePayload).1.resumes.find? (fun r => r.user == 2) ≠
      some (resumeInsert 3 2 samplePayload) := by
  decide

/-- C10 (implicit claim): the owning foreign key of every written document
comes from the authenticated identity: every resume document written by
`saveResume` has `user` equal to the caller's id, every job created by
`createJob` has `recruiter` equal to the caller's id, and the `user` /
`recruiter` values carried by the payload are ignored entirely. -/
theorem owner_from_authenticated_identity (db : DB) (uid : Id)
    (p : ResumePayload) (q : JobPayload) :
    (∀ r, r ∈ (saveResume db uid p).1.resumes → r ∉ db.resumes → r.user = uid) ∧
    (∀ v, saveResume db uid { p with user := v } = saveResume db uid p) ∧
    (∀ j, (createJob db uid q).2 = .ok j → j.recruiter = uid) ∧
    (∀ j, j ∈ (createJob db uid q).1.jobs → j ∉ db.jobs → j.recruiter = uid) ∧
    (∀ v, createJob db uid { q with recruiter := v } = createJob db uid q) := by
  refine ⟨?_, ?_, ?_, ?_, ?_⟩
  · intro r hr hnot
    cases hf : db.resumes.find? (fun r => r.user == uid) with
    | some r0 =>
      have hd : (saveResume db uid p).1.resumes =
          updateFirst (fun r => r.user == uid) (resumeSet uid p) db.resumes := by
        simp [saveResume, hf]
      rw [hd] at hr
      rcases updateFirst_mem hr with h | ⟨y, _, _, hy⟩
      · exact absurd h hnot
      · rw [hy]
        rfl
    | none =>
      have hd : (saveResume db uid p).1.resumes =
          db.resumes ++ [resumeInsert db.nextId uid p] := by
        simp [saveResume, hf]
      rw [hd] at hr
      rcases List.mem_append.mp hr with h | h
      · exact absurd h hnot
      · rcases List.mem_singleton.mp h with rfl
        rfl
  · intro v
    cases p
    rfl
  · intro j hj
    cases ho : jobOfPayload db.nextId uid q with
    | none => simp [createJob, ho] at hj
    | some j' =>
      have : j = j' := by simp [createJob, ho] at hj; rw [hj]
      rw [this]
      exact (jobOfPayload_fields db.nextId uid q j' ho).1
  · intro j hj hnot
    cases ho : jobOfPayload db.nextId uid q with
    | none =>
      have : (createJob db uid q).1.jobs = db.jobs := by simp [createJob, ho]
      rw [this] at hj
      exact absurd hj hnot
    | some j' =>
      have : (createJob db uid q).1.jobs = db.jobs ++ [j'] := by simp [createJob, ho]
      rw [this] at hj
      rcases List.mem_append.mp hj with h | h
      · exact absurd h hnot
      · have heq := List.mem_singleton.mp h
        rw [heq]
        exact (jobOfPayload_fields db.nextId uid q j' ho).1
  · intro v
    cases q
    rfl

/-- C10 witness: on the sample database, a resume payload claiming owner
99 is written for candidate 2 all the same, and a job payload claiming
recruiter 42 is created for recruiter 7. -/
theorem owner_from_identity_witness :
    saveResume sampleDb 2 samplePayload =
      saveResume sampleDb 2 { samplePayload with user := none } ∧
    ∀ j, (createJob sampleDb 7 goodJobPayload).2 = .ok j → j.recruiter = 7 := by
  have h := owner_from_authenticated_identity sampleDb 2 samplePayload goodJobPayload
  have h7 := owner_from_authenticated_identity sampleDb 7 samplePayload goodJobPayload
  constructor
  · have h1 := h.2.1 (some 99)
    have h2 := h.2.1 none
    rw [show { samplePayload with user := some 99 } = samplePayload from rfl] at h1
    rw [← h2]
  · exact h7.2.2.1

end JobBoard
